import Mathlib

/-!
Eigen scalar functors (`Eigen/src/Core/Functors.h`)

A shallow embedding of the functor catalog of `Functors.h` and of the
`ei_functor_traits` specialisations that accompany it.

* A C++ template parameter `Scalar` is a Lean type `S`; the operators the
  template body uses (`+`, `*`, `-`, `/`, `<`, `Scalar(0)`, `Scalar(1)`) are the
  corresponding type classes on `S`.
* `operator()` of a functor is the definition `call` in the functor's namespace.
* A template specialised on a `bool` parameter (`PacketAccess`,
  `HasFloatingPoint`) is a structure indexed by a `Bool`; its constructor and
  its `call` are defined by cases on that index, one case per specialisation.
* The `enum` members of a traits specialisation are the fields of
  `ei_functor_traits`; `NumTraits<Scalar>` and `ei_packet_traits<Scalar>::size`,
  which the header only uses, are parameters.
-/

namespace Eigen

/-! ## What the header uses and does not define -/

/-- Modelled from the spec: the scalar-type trait provider `NumTraits<Scalar>`, which is
declared outside `Functors.h`.  It exposes the addition and multiplication cost units,
whether the type is complex-valued and whether it has floating semantics.  The cost
units are compile-time integer constants; nothing in the header restricts their
values. -/
structure NumTraits where
  IsComplex : Bool
  HasFloatingPoint : Bool
  AddCost : Int
  MulCost : Int
deriving DecidableEq, Repr

/-- Modelled from the spec: `ei_is_same_type<A, B>::ret`, declared outside `Functors.h`:
true exactly when the two type arguments are the same type.  Types are the elements
of a type `Ty` of type names with decidable equality. -/
def ei_is_same_type {Ty : Type} [DecidableEq Ty] (A B : Ty) : Bool :=
  decide (A = B)

/-- Modelled from the spec: the batch ("packet") type `ei_packet_traits<Scalar>::type`,
declared outside `Functors.h`: a fixed-width group of `w` scalars, lane `i` of the
batch `p` being `p i`. -/
abbrev Packet (S : Type) (w : Nat) : Type := Fin w → S

/-- Modelled from the spec: the batched primitive `ei_pset1` (broadcast), declared outside
`Functors.h`: every lane holds the given scalar. -/
def ei_pset1 {S : Type} (w : Nat) (a : S) : Packet S w :=
  fun _ => a

/-- Modelled from the spec: the batched primitive `ei_pfirst` (extract-first-lane),
declared outside `Functors.h`.  A batch has a first lane when its width is positive. -/
def ei_pfirst {S : Type} {w : Nat} (hw : 0 < w) (p : Packet S w) : S :=
  p ⟨0, hw⟩

/-- Modelled from the spec: the batched primitive `ei_padd` (add), declared outside
`Functors.h`: lane `i` of the result is the sum of the lanes `i` of the operands. -/
def ei_padd {S : Type} [Add S] {w : Nat} (a b : Packet S w) : Packet S w :=
  fun i => a i + b i

/-- Modelled from the spec: the batched primitive `ei_psub` (subtract), declared outside
`Functors.h`, lane by lane. -/
def ei_psub {S : Type} [Sub S] {w : Nat} (a b : Packet S w) : Packet S w :=
  fun i => a i - b i

/-- Modelled from the spec: the batched primitive `ei_pmul` (multiply), declared outside
`Functors.h`, lane by lane. -/
def ei_pmul {S : Type} [Mul S] {w : Nat} (a b : Packet S w) : Packet S w :=
  fun i => a i * b i

/-- Modelled from the spec: the batched primitive `ei_pmin` (min), declared outside
`Functors.h`, for every scalar type with a comparison `<`, total or not (a floating type
with not-a-number values included).  The spec requires of a batched form that each lane
of its result be what the scalar form gives on that lane, and the scalar min defers to
the comparison of the scalar type: lane `i` of the result is `b[i]` when `b[i] < a[i]`
and `a[i]` otherwise. -/
def ei_pmin {S : Type} [LT S] [DecidableRel (fun x y : S => x < y)] {w : Nat}
    (a b : Packet S w) : Packet S w :=
  fun i => if b i < a i then b i else a i

/-- Modelled from the spec: the batched primitive `ei_pmax` (max), declared outside
`Functors.h`, for every scalar type with a comparison `<`, total or not.  As for
`ei_pmin`, each lane is what the scalar max gives on that lane: lane `i` of the result is
`b[i]` when `a[i] < b[i]` and `a[i]` otherwise. -/
def ei_pmax {S : Type} [LT S] [DecidableRel (fun x y : S => x < y)] {w : Nat}
    (a b : Packet S w) : Packet S w :=
  fun i => if a i < b i then b i else a i

/-- The C++ standard library `std::min(a, b)`: `(b < a) ? b : a`. -/
def std_min {S : Type} [LT S] [DecidableRel (fun x y : S => x < y)] (a b : S) : S :=
  if b < a then b else a

/-- The C++ standard library `std::max(a, b)`: `(a < b) ? b : a`. -/
def std_max {S : Type} [LT S] [DecidableRel (fun x y : S => x < y)] (a b : S) : S :=
  if a < b then b else a

/-- The members of an `ei_functor_traits` specialisation.  `Cost` and `PacketAccess` are
declared by every specialisation of the header; `IsRepeatable` only by those of the
nullary functors, and is `none` where the specialisation does not declare it. -/
structure ei_functor_traits where
  Cost : Int
  PacketAccess : Bool
  IsRepeatable : Option Bool
deriving DecidableEq, Repr

/-! ## Associative functors -/

/-- `ei_scalar_sum_op<Scalar>::operator()`: `a + b`. -/
def ei_scalar_sum_op.call {S : Type} [Add S] (a b : S) : S :=
  a + b

/-- `ei_scalar_sum_op<Scalar>::packetOp`: `ei_padd(a,b)`. -/
def ei_scalar_sum_op.packetOp {S : Type} [Add S] {w : Nat} (a b : Packet S w) : Packet S w :=
  ei_padd a b

/-- `ei_functor_traits<ei_scalar_sum_op<Scalar> >`; `size` is
`ei_packet_traits<Scalar>::size`. -/
def ei_scalar_sum_op.traits (nt : NumTraits) (size : Nat) : ei_functor_traits :=
  ⟨nt.AddCost, decide (size > 1), none⟩

/-- `ei_scalar_product_op<Scalar>::operator()`: `a * b`. -/
def ei_scalar_product_op.call {S : Type} [Mul S] (a b : S) : S :=
  a * b

/-- `ei_scalar_product_op<Scalar>::packetOp`: `ei_pmul(a,b)`. -/
def ei_scalar_product_op.packetOp {S : Type} [Mul S] {w : Nat} (a b : Packet S w) :
    Packet S w :=
  ei_pmul a b

/-- `ei_functor_traits<ei_scalar_product_op<Scalar> >`. -/
def ei_scalar_product_op.traits (nt : NumTraits) (size : Nat) : ei_functor_traits :=
  ⟨nt.MulCost, decide (size > 1), none⟩

/-- `ei_scalar_min_op<Scalar>::operator()`: `std::min(a, b)`. -/
def ei_scalar_min_op.call {S : Type} [LT S] [DecidableRel (fun x y : S => x < y)]
    (a b : S) : S :=
  std_min a b

/-- `ei_scalar_min_op<Scalar>::packetOp`: `ei_pmin(a,b)`. -/
def ei_scalar_min_op.packetOp {S : Type} [LT S] [DecidableRel (fun x y : S => x < y)]
    {w : Nat} (a b : Packet S w) : Packet S w :=
  ei_pmin a b

/-- `ei_functor_traits<ei_scalar_min_op<Scalar> >`. -/
def ei_scalar_min_op.traits (nt : NumTraits) (size : Nat) : ei_functor_traits :=
  ⟨nt.AddCost, decide (size > 1), none⟩

/-- `ei_scalar_max_op<Scalar>::operator()`: `std::max(a, b)`. -/
def ei_scalar_max_op.call {S : Type} [LT S] [DecidableRel (fun x y : S => x < y)]
    (a b : S) : S :=
  std_max a b

/-- `ei_scalar_max_op<Scalar>::packetOp`: `ei_pmax(a,b)`. -/
def ei_scalar_max_op.packetOp {S : Type} [LT S] [DecidableRel (fun x y : S => x < y)]
    {w : Nat} (a b : Packet S w) : Packet S w :=
  ei_pmax a b

/-- `ei_functor_traits<ei_scalar_max_op<Scalar> >`. -/
def ei_scalar_max_op.traits (nt : NumTraits) (size : Nat) : ei_functor_traits :=
  ⟨nt.AddCost, decide (size > 1), none⟩

/-! ## Other binary functors -/

/-- `ei_scalar_difference_op<Scalar>::operator()`: `a - b`. -/
def ei_scalar_difference_op.call {S : Type} [Sub S] (a b : S) : S :=
  a - b

/-- `ei_scalar_difference_op<Scalar>::packetOp`: `ei_psub(a,b)`. -/
def ei_scalar_difference_op.packetOp {S : Type} [Sub S] {w : Nat} (a b : Packet S w) :
    Packet S w :=
  ei_psub a b

/-- `ei_functor_traits<ei_scalar_difference_op<Scalar> >`. -/
def ei_scalar_difference_op.traits (nt : NumTraits) (size : Nat) : ei_functor_traits :=
  ⟨nt.AddCost, decide (size > 1), none⟩

/-- `ei_scalar_quotient_op<Scalar>::operator()`: `a / b`. -/
def ei_scalar_quotient_op.call {S : Type} [Div S] (a b : S) : S :=
  a / b

/-- `ei_functor_traits<ei_scalar_quotient_op<Scalar> >`. -/
def ei_scalar_quotient_op.traits (nt : NumTraits) : ei_functor_traits :=
  ⟨2 * nt.MulCost, false, none⟩

/-! ## Unary functors -/

/-- `ei_scalar_opposite_op<Scalar>::operator()`: `-a`. -/
def ei_scalar_opposite_op.call {S : Type} [Neg S] (a : S) : S :=
  -a

/-- `ei_functor_traits<ei_scalar_opposite_op<Scalar> >`. -/
def ei_scalar_opposite_op.traits (nt : NumTraits) : ei_functor_traits :=
  ⟨nt.AddCost, false, none⟩

/-- `ei_functor_traits<ei_scalar_abs_op<Scalar> >`. -/
def ei_scalar_abs_op.traits (nt : NumTraits) : ei_functor_traits :=
  ⟨nt.AddCost, false, none⟩

/-- `ei_functor_traits<ei_scalar_abs2_op<Scalar> >`. -/
def ei_scalar_abs2_op.traits (nt : NumTraits) : ei_functor_traits :=
  ⟨nt.MulCost, false, none⟩

/-- `ei_functor_traits<ei_scalar_conjugate_op<Scalar> >`:
`Cost = NumTraits<Scalar>::IsComplex ? NumTraits<Scalar>::AddCost : 0`. -/
def ei_scalar_conjugate_op.traits (nt : NumTraits) : ei_functor_traits :=
  ⟨if nt.IsComplex then nt.AddCost else 0, false, none⟩

/-- `ei_functor_traits<ei_scalar_cast_op<Scalar,NewType> >`:
`Cost = ei_is_same_type<Scalar, NewType>::ret ? 0 : NumTraits<NewType>::AddCost`.
`NT` is the template `NumTraits`, mapping a type name to its traits. -/
def ei_scalar_cast_op.traits {Ty : Type} [DecidableEq Ty] (NT : Ty → NumTraits)
    (Scalar NewType : Ty) : ei_functor_traits :=
  ⟨if ei_is_same_type Scalar NewType then 0 else (NT NewType).AddCost, false, none⟩

/-- `ei_functor_traits<ei_scalar_real_op<Scalar> >`. -/
def ei_scalar_real_op.traits : ei_functor_traits :=
  ⟨0, false, none⟩

/-! ## Scalar multiple -/

/-- The type of the member `m_other` of `ei_scalar_multiple_op<Scalar,PacketAccess>` and
of `ei_scalar_constant_op<Scalar,PacketAccess>`: `PacketScalar` in the specialisation for
`true`, `Scalar` in the one for `false`. -/
@[reducible] def Stored (S : Type) (w : Nat) : Bool → Type
  | true => Packet S w
  | false => S

/-- `ei_scalar_multiple_op<Scalar,PacketAccess>`, with its one member. -/
structure ei_scalar_multiple_op (S : Type) (w : Nat) (PacketAccess : Bool) where
  m_other : Stored S w PacketAccess

/-- The constructors `ei_scalar_multiple_op(const Scalar& other)`:
`m_other(ei_pset1(other))` for `<Scalar,true>`, `m_other(other)` for `<Scalar,false>`. -/
def ei_scalar_multiple_op.ctor {S : Type} (w : Nat) :
    (PacketAccess : Bool) → S → ei_scalar_multiple_op S w PacketAccess
  | true, other => ⟨ei_pset1 w other⟩
  | false, other => ⟨other⟩

/-- `ei_scalar_multiple_op::operator()`: `a * ei_pfirst(m_other)` for `<Scalar,true>`,
`a * m_other` for `<Scalar,false>`. -/
def ei_scalar_multiple_op.call {S : Type} [Mul S] {w : Nat} (hw : 0 < w) :
    {PacketAccess : Bool} → ei_scalar_multiple_op S w PacketAccess → S → S
  | true, f, a => a * ei_pfirst hw f.m_other
  | false, f, a => a * f.m_other

/-- `ei_scalar_multiple_op<Scalar,true>::packetOp`: `ei_pmul(a, m_other)`. -/
def ei_scalar_multiple_op.packetOp {S : Type} [Mul S] {w : Nat}
    (f : ei_scalar_multiple_op S w true) (a : Packet S w) : Packet S w :=
  ei_pmul a f.m_other

/-- `ei_functor_traits<ei_scalar_multiple_op<Scalar> >`. -/
def ei_scalar_multiple_op.traits (nt : NumTraits) (size : Nat) : ei_functor_traits :=
  ⟨nt.MulCost, decide (size > 1), none⟩

/-! ## Scalar quotient by a constant -/

/-- `ei_scalar_quotient1_impl<Scalar,HasFloatingPoint>`, with its one member. -/
structure ei_scalar_quotient1_impl (S : Type) (HasFloatingPoint : Bool) where
  m_other : S

/-- The constructors `ei_scalar_quotient1_impl(const Scalar& other)`:
`m_other(static_cast<Scalar>(1) / other)` in the primary template, `m_other(other)` in the
specialisation `<Scalar,false>`. -/
def ei_scalar_quotient1_impl.ctor {S : Type} [One S] [Div S] :
    (HasFloatingPoint : Bool) → S → ei_scalar_quotient1_impl S HasFloatingPoint
  | true, other => ⟨(1 : S) / other⟩
  | false, other => ⟨other⟩

/-- `ei_scalar_quotient1_impl::operator()`: `a * m_other` in the primary template,
`a / m_other` in the specialisation `<Scalar,false>`. -/
def ei_scalar_quotient1_impl.call {S : Type} [Mul S] [Div S] :
    {HasFloatingPoint : Bool} → ei_scalar_quotient1_impl S HasFloatingPoint → S → S
  | true, f, a => a * f.m_other
  | false, f, a => a / f.m_other

/-- `ei_functor_traits<ei_scalar_quotient1_impl<Scalar,true> >` and
`ei_functor_traits<ei_scalar_quotient1_impl<Scalar,false> >`. -/
def ei_scalar_quotient1_impl.traits (nt : NumTraits) : Bool → ei_functor_traits
  | true => ⟨nt.MulCost, false, none⟩
  | false => ⟨2 * nt.MulCost, false, none⟩

/-- `ei_scalar_quotient1_op<Scalar>`: derives from
`ei_scalar_quotient1_impl<Scalar, NumTraits<Scalar>::HasFloatingPoint>`. -/
abbrev ei_scalar_quotient1_op (S : Type) (nt : NumTraits) : Type :=
  ei_scalar_quotient1_impl S nt.HasFloatingPoint

/-- The constructor `ei_scalar_quotient1_op(const Scalar& other)`, which forwards `other`
to the constructor of its base. -/
def ei_scalar_quotient1_op.ctor {S : Type} [One S] [Div S] (nt : NumTraits) (other : S) :
    ei_scalar_quotient1_op S nt :=
  ei_scalar_quotient1_impl.ctor nt.HasFloatingPoint other

/-- `operator()` of `ei_scalar_quotient1_op<Scalar>`, inherited from its base. -/
def ei_scalar_quotient1_op.call {S : Type} [Mul S] [Div S] {nt : NumTraits}
    (f : ei_scalar_quotient1_op S nt) (a : S) : S :=
  ei_scalar_quotient1_impl.call f a

/-! ## Nullary functors -/

/-- `ei_scalar_constant_op<Scalar,PacketAccess>`, with its one member. -/
structure ei_scalar_constant_op (S : Type) (w : Nat) (PacketAccess : Bool) where
  m_other : Stored S w PacketAccess

/-- The constructors `ei_scalar_constant_op(const Scalar& other)`:
`m_other(ei_pset1(other))` for `<Scalar,true>`, `m_other(other)` for `<Scalar,false>`. -/
def ei_scalar_constant_op.ctor {S : Type} (w : Nat) :
    (PacketAccess : Bool) → S → ei_scalar_constant_op S w PacketAccess
  | true, other => ⟨ei_pset1 w other⟩
  | false, other => ⟨other⟩

/-- `ei_scalar_constant_op::operator() (int, int)`: `ei_pfirst(m_other)` for
`<Scalar,true>`, `m_other` for `<Scalar,false>`.  The two coordinates are unnamed in the
source. -/
def ei_scalar_constant_op.call {S : Type} {w : Nat} (hw : 0 < w) :
    {PacketAccess : Bool} → ei_scalar_constant_op S w PacketAccess → Int → Int → S
  | true, f, _, _ => ei_pfirst hw f.m_other
  | false, f, _, _ => f.m_other

/-- `ei_scalar_constant_op<Scalar,true>::packetOp`: `m_other`. -/
def ei_scalar_constant_op.packetOp {S : Type} {w : Nat}
    (f : ei_scalar_constant_op S w true) : Packet S w :=
  f.m_other

/-- `ei_functor_traits<ei_scalar_constant_op<Scalar> >`. -/
def ei_scalar_constant_op.traits (size : Nat) : ei_functor_traits :=
  ⟨1, decide (size > 1), some true⟩

/-- `ei_scalar_identity_op<Scalar>::operator() (int row, int col)`:
`row==col ? Scalar(1) : Scalar(0)`. -/
def ei_scalar_identity_op.call {S : Type} [One S] [Zero S] (row col : Int) : S :=
  if row = col then (1 : S) else (0 : S)

/-- `ei_functor_traits<ei_scalar_identity_op<Scalar> >`. -/
def ei_scalar_identity_op.traits (nt : NumTraits) : ei_functor_traits :=
  ⟨nt.AddCost, false, some true⟩

/-! ## The built-in signed integer types as scalar types

`Functors.h` is generic in `Scalar`.  To speak of the non-floating strategy on a
built-in integer type, the arithmetic of a signed two's complement type of `bits` bits
is given here as the C++ language defines it: the quotient of two integers is the
algebraic quotient with the fractional part discarded, and an expression whose result
is not defined (a zero divisor) or not representable has undefined behaviour. -/

/-- The least value of a signed two's complement integer type of `bits` bits. -/
def CInt.minVal (bits : Nat) : Int :=
  -(2 ^ (bits - 1))

/-- The greatest value of a signed two's complement integer type of `bits` bits. -/
def CInt.maxVal (bits : Nat) : Int :=
  2 ^ (bits - 1) - 1

/-- The integer `v` is a value of the signed integer type of `bits` bits. -/
def CInt.InRange (bits : Nat) (v : Int) : Prop :=
  CInt.minVal bits ≤ v ∧ v ≤ CInt.maxVal bits

instance (bits : Nat) (v : Int) : Decidable (CInt.InRange bits v) :=
  inferInstanceAs (Decidable (_ ∧ _))

/-- The outcome of evaluating a C++ expression of a signed integer type of `bits` bits:
`some v` when it has the value `v`, `none` when its evaluation has undefined
behaviour. -/
def CInt (_bits : Nat) : Type :=
  Option Int

instance (bits : Nat) : DecidableEq (CInt bits) :=
  inferInstanceAs (DecidableEq (Option Int))

/-- `static_cast<Scalar>(1)` for a built-in integer type. -/
instance (bits : Nat) : One (CInt bits) :=
  ⟨some (1 : Int)⟩

/-- Built-in `a / b` on a signed integer type: undefined for a zero divisor and for the
one quotient that is not representable (least value divided by `-1`); otherwise the
algebraic quotient with the fractional part discarded (the rule of C++11, which
compilers also follow under the earlier standards). -/
def CInt.div {bits : Nat} : CInt bits → CInt bits → CInt bits
  | some x, some y =>
    if y = 0 ∨ (x = CInt.minVal bits ∧ y = -1) then none else some (Int.tdiv x y)
  | _, _ => none

instance (bits : Nat) : Div (CInt bits) :=
  ⟨CInt.div⟩

/-- Built-in `a * b` on a signed integer type: undefined when the product is not
representable. -/
def CInt.mul {bits : Nat} : CInt bits → CInt bits → CInt bits
  | some x, some y => if CInt.InRange bits (x * y) then some (x * y) else none
  | _, _ => none

instance (bits : Nat) : Mul (CInt bits) :=
  ⟨CInt.mul⟩

/-- The value `v` as an expression of the signed integer type of `bits` bits. -/
def CInt.ofInt (bits : Nat) (v : Int) : CInt bits :=
  some v

/-! ## Unbounded integers as a scalar type -/

/-- An integer scalar type without a bound on its values, whose operators are those of
the C++ integer types: the quotient is truncated toward zero. -/
structure ZInt where
  val : Int
deriving DecidableEq, Repr

instance : Zero ZInt :=
  ⟨⟨0⟩⟩

instance : One ZInt :=
  ⟨⟨1⟩⟩

instance : Mul ZInt :=
  ⟨fun a b => ⟨a.val * b.val⟩⟩

instance : Div ZInt :=
  ⟨fun a b => ⟨Int.tdiv a.val b.val⟩⟩

/-! ## Absolute value and squared absolute value -/

/-- A complex scalar `std::complex<R>`: a pair of reals, the real and the imaginary
part. -/
structure ei_complex (R : Type) where
  re : R
  im : R
deriving DecidableEq, Repr

/-- Modelled from the spec: what `ei_scalar_abs_op` and `ei_scalar_abs2_op` use of a scalar
type `S`, all of it declared outside `Functors.h`: the overloads `ei_abs` and `ei_abs2`
for `S`, whose results are of the real-number counterpart `NumTraits<Scalar>::Real`. -/
structure MathFunctions (S Real : Type) where
  ei_abs : S → Real
  ei_abs2 : S → Real

/-- Modelled from the spec: `ei_abs` and `ei_abs2` of a real scalar type by their standard
definitions, `|a|` and `a * a`; the real-number counterpart of the type is the type
itself. -/
def MathFunctions.real (R : Type) [LinearOrderedRing R] : MathFunctions R R :=
  ⟨fun a => |a|, fun a => a * a⟩

/-- Modelled from the spec: `ei_abs` and `ei_abs2` of a complex scalar type by their
standard definitions, `std::abs` (the square root of `x^2 + y^2`) and `std::norm`
(`x^2 + y^2`); `sqrt` is the square root of the real type. -/
def MathFunctions.complex (R : Type) [Add R] [Mul R] (sqrt : R → R) :
    MathFunctions (ei_complex R) R :=
  ⟨fun z => sqrt (z.re * z.re + z.im * z.im), fun z => z.re * z.re + z.im * z.im⟩

/-- `ei_scalar_abs_op<Scalar>::operator()`: `ei_abs(a)`, of type
`NumTraits<Scalar>::Real`. -/
def ei_scalar_abs_op.call {S Real : Type} (m : MathFunctions S Real) (a : S) : Real :=
  m.ei_abs a

/-- `ei_scalar_abs2_op<Scalar>::operator()`: `ei_abs2(a)`, of type
`NumTraits<Scalar>::Real`. -/
def ei_scalar_abs2_op.call {S Real : Type} (m : MathFunctions S Real) (a : S) : Real :=
  m.ei_abs2 a

/-! ## The catalog as a whole -/

/-- The default template argument of `ei_scalar_multiple_op` and of
`ei_scalar_constant_op`: `PacketAccess = (int(ei_packet_traits<Scalar>::size)>1?true:false)`. -/
def defaultPacketAccess (size : Nat) : Bool :=
  if size > 1 then true else false

/-- The instantiations of the functor templates of `Functors.h` for which the header
declares an `ei_functor_traits` specialisation, over a type `Ty` of scalar type names.
`multiple` and `constant` stand for `ei_scalar_multiple_op<Scalar>` and
`ei_scalar_constant_op<Scalar>`, the second template argument being the default one. -/
inductive ScalarFunctor (Ty : Type) where
  | sum (Scalar : Ty)
  | product (Scalar : Ty)
  | min (Scalar : Ty)
  | max (Scalar : Ty)
  | difference (Scalar : Ty)
  | quotient (Scalar : Ty)
  | opposite (Scalar : Ty)
  | abs (Scalar : Ty)
  | abs2 (Scalar : Ty)
  | conjugate (Scalar : Ty)
  | cast (Scalar NewType : Ty)
  | real (Scalar : Ty)
  | multiple (Scalar : Ty)
  | quotient1_impl (Scalar : Ty) (HasFloatingPoint : Bool)
  | constant (Scalar : Ty)
  | identity (Scalar : Ty)
deriving DecidableEq, Repr

/-- `ei_functor_traits<F>` for each instantiation `F`; `NT` is the template `NumTraits`
and `size` is `ei_packet_traits<Scalar>::size` as a function of the scalar type. -/
def ScalarFunctor.traits {Ty : Type} [DecidableEq Ty] (NT : Ty → NumTraits)
    (size : Ty → Nat) : ScalarFunctor Ty → ei_functor_traits
  | .sum s => ei_scalar_sum_op.traits (NT s) (size s)
  | .product s => ei_scalar_product_op.traits (NT s) (size s)
  | .min s => ei_scalar_min_op.traits (NT s) (size s)
  | .max s => ei_scalar_max_op.traits (NT s) (size s)
  | .difference s => ei_scalar_difference_op.traits (NT s) (size s)
  | .quotient s => ei_scalar_quotient_op.traits (NT s)
  | .opposite s => ei_scalar_opposite_op.traits (NT s)
  | .abs s => ei_scalar_abs_op.traits (NT s)
  | .abs2 s => ei_scalar_abs2_op.traits (NT s)
  | .conjugate s => ei_scalar_conjugate_op.traits (NT s)
  | .cast s t => ei_scalar_cast_op.traits NT s t
  | .real _ => ei_scalar_real_op.traits
  | .multiple s => ei_scalar_multiple_op.traits (NT s) (size s)
  | .quotient1_impl s hfp => ei_scalar_quotient1_impl.traits (NT s) hfp
  | .constant s => ei_scalar_constant_op.traits (size s)
  | .identity s => ei_scalar_identity_op.traits (NT s)

/-- Whether the struct that the instantiation names has a member `packetOp`.  The structs
of sum, product, min, max and difference define it; of `ei_scalar_multiple_op` and
`ei_scalar_constant_op` only the specialisation `<Scalar,true>` defines it, and the
instantiation names the specialisation for the default argument. -/
def ScalarFunctor.definesPacketOp {Ty : Type} (size : Ty → Nat) : ScalarFunctor Ty → Bool
  | .sum _ => true
  | .product _ => true
  | .min _ => true
  | .max _ => true
  | .difference _ => true
  | .multiple s => defaultPacketAccess (size s)
  | .constant s => defaultPacketAccess (size s)
  | _ => false

/-- Whether the functor template has a batched form at all: some struct of the template
has a member `packetOp`. -/
def ScalarFunctor.hasBatchedForm {Ty : Type} : ScalarFunctor Ty → Bool
  | .sum _ => true
  | .product _ => true
  | .min _ => true
  | .max _ => true
  | .difference _ => true
  | .multiple _ => true
  | .constant _ => true
  | _ => false

/-! ## The nullary generators -/

/-- C1: for every pair of integer coordinates, negative and zero ones included, and every
scalar type in which `Scalar(1)` differs from `Scalar(0)`, `ei_scalar_identity_op`
returns `Scalar(1)` if and only if `row == col`, and `Scalar(0)` if and only if
`row != col`. -/
theorem ei_scalar_identity_op_call_iff {S : Type} [One S] [Zero S] (h10 : (1 : S) ≠ 0)
    (row col : Int) :
    ((ei_scalar_identity_op.call row col : S) = 1 ↔ row = col)
    ∧ ((ei_scalar_identity_op.call row col : S) = 0 ↔ row ≠ col) := by
  unfold ei_scalar_identity_op.call
  by_cases h : row = col
  · simp [h, h10]
  · simp [h, Ne.symm h10]

/-- Instance of C1: integer scalars, on the diagonal at a negative coordinate. -/
theorem ei_scalar_identity_op_call_iff_witness :
    (1 : Int) ≠ 0
    ∧ (((ei_scalar_identity_op.call (-3) (-3) : Int) = 1 ↔ (-3 : Int) = -3)
      ∧ ((ei_scalar_identity_op.call (-3) (-3) : Int) = 0 ↔ (-3 : Int) ≠ -3)) :=
  ⟨by decide, ei_scalar_identity_op_call_iff (by decide) (-3) (-3)⟩

/-- C2: `ei_scalar_constant_op` constructed with `c` returns exactly `c` at every
coordinate pair, in the non-vectorized specialisation and in the vectorized one; any two
calls, at equal or different coordinates and in either specialisation, return equal
values; and every lane of the batch returned by `packetOp()` is `c`. -/
theorem ei_scalar_constant_op_call_eq {S : Type} {w : Nat} (hw : 0 < w) (c : S)
    (row col row2 col2 : Int) :
    ei_scalar_constant_op.call hw (ei_scalar_constant_op.ctor w false c) row col = c
    ∧ ei_scalar_constant_op.call hw (ei_scalar_constant_op.ctor w true c) row col = c
    ∧ (∀ pa pa2 : Bool,
        ei_scalar_constant_op.call hw (ei_scalar_constant_op.ctor w pa c) row col
          = ei_scalar_constant_op.call hw (ei_scalar_constant_op.ctor w pa2 c) row2 col2)
    ∧ (∀ i : Fin w,
        ei_scalar_constant_op.packetOp (ei_scalar_constant_op.ctor w true c) i = c) := by
  refine ⟨rfl, rfl, ?_, fun _ => rfl⟩
  intro pa pa2
  cases pa <;> cases pa2 <;> rfl

/-- Instance of C2: the constant `5` on a type of batch width `4`. -/
theorem ei_scalar_constant_op_call_eq_witness :
    0 < 4
    ∧ ei_scalar_constant_op.call (by decide : 0 < 4)
        (ei_scalar_constant_op.ctor 4 true (5 : Int)) 0 (-1) = 5
    ∧ ei_scalar_constant_op.packetOp (ei_scalar_constant_op.ctor 4 true (5 : Int))
        = ![5, 5, 5, 5] := by
  have h := ei_scalar_constant_op_call_eq (by decide : 0 < 4) (5 : Int) 0 (-1) 7 7
  refine ⟨by decide, h.2.1, ?_⟩
  funext i
  rw [h.2.2.2 i]
  fin_cases i <;> rfl

/-! ## Scalar quotient by a constant -/

/-- Truncating division of a non-positive by a non-negative integer is non-positive. -/
theorem tdiv_nonpos_of_nonpos_of_nonneg {a c : Int} (ha : a ≤ 0) (hc : 0 ≤ c) :
    Int.tdiv a c ≤ 0 := by
  have h : Int.tdiv a c = -Int.tdiv (-a) c := by rw [Int.neg_tdiv, neg_neg]
  have h2 : 0 ≤ Int.tdiv (-a) c := Int.tdiv_nonneg (by omega) hc
  omega

/-- Truncating division of two non-positive integers is non-negative. -/
theorem tdiv_nonneg_of_nonpos_of_nonpos {a c : Int} (ha : a ≤ 0) (hc : c ≤ 0) :
    0 ≤ Int.tdiv a c := by
  have h : Int.tdiv a c = Int.tdiv (-a) (-c) := by
    rw [Int.neg_tdiv, Int.tdiv_neg, neg_neg]
  rw [h]
  exact Int.tdiv_nonneg (by omega) (by omega)

/-- `Int.tdiv` is the quotient truncated toward zero: its magnitude is the quotient of the
magnitudes rounded down, and its sign is that of the exact quotient. -/
theorem tdiv_trunc (a c : Int) :
    (Int.tdiv a c).natAbs = a.natAbs / c.natAbs
    ∧ (0 ≤ a * c → 0 ≤ Int.tdiv a c) ∧ (a * c ≤ 0 → Int.tdiv a c ≤ 0) := by
  refine ⟨Int.natAbs_tdiv a c, ?_, ?_⟩
  · intro h
    rcases mul_nonneg_iff.1 h with ⟨ha, hc⟩ | ⟨ha, hc⟩
    · exact Int.tdiv_nonneg ha hc
    · exact tdiv_nonneg_of_nonpos_of_nonpos ha hc
  · intro h
    rcases mul_nonpos_iff.1 h with ⟨ha, hc⟩ | ⟨ha, hc⟩
    · exact Int.tdiv_nonpos ha hc
    · exact tdiv_nonpos_of_nonpos_of_nonneg ha hc

/-- The truncated quotient of a representable integer by a non-zero integer is
representable, the least value divided by `-1` apart. -/
theorem tdiv_inRange (bits : Nat) (a c : Int) (ha : CInt.InRange bits a)
    (hc0 : c ≠ 0) (hov : ¬ (a = CInt.minVal bits ∧ c = -1)) :
    CInt.InRange bits (Int.tdiv a c) := by
  obtain ⟨hn, hp, hm⟩ := tdiv_trunc a c
  unfold CInt.InRange CInt.minVal CInt.maxVal at *
  generalize (2 : Int) ^ (bits - 1) = M at *
  have hle : a.natAbs / c.natAbs ≤ a.natAbs := Nat.div_le_self _ _
  by_cases h1 : c.natAbs = 1
  · rw [h1, Nat.div_one] at hn
    rcases le_total 0 (a * c) with h | h
    · have := hp h
      by_cases hc1 : c = -1
      · subst hc1
        omega
      · have : c = 1 := by omega
        subst this
        omega
    · have := hm h
      omega
  · by_cases ha0 : a = 0
    · subst ha0
      simp at hn
      omega
    · have hlt : a.natAbs / c.natAbs < a.natAbs :=
        Nat.div_lt_self (by omega) (by omega)
      omega

/-- On a built-in signed integer type, `a / c` with `c` non-zero and the overflowing case
apart has a value, the truncated quotient. -/
theorem CInt.div_ofInt (bits : Nat) (a c : Int) (hc0 : c ≠ 0)
    (hov : ¬ (a = CInt.minVal bits ∧ c = -1)) :
    (CInt.ofInt bits a / CInt.ofInt bits c) = CInt.ofInt bits (Int.tdiv a c) := by
  show CInt.div (some a) (some c) = some (Int.tdiv a c)
  simp only [CInt.div]
  rw [if_neg]
  rintro (h | h)
  · exact hc0 h
  · exact hov h

/-- C3: for the non-floating strategy on a signed integer type of any width, every
representable `a` and every representable divisor `c != 0`, the case `a` = least value,
`c = -1` apart: the functor constructed with `c` and applied to `a` has a value, the
native quotient `a / c`, which is the quotient truncated toward zero (magnitude
`|a| / |c|` rounded down, sign of the exact quotient) and is representable.  This is so
for `ei_scalar_quotient1_impl<Scalar,false>` and for `ei_scalar_quotient1_op<Scalar>`
when `NumTraits<Scalar>::HasFloatingPoint` is false. -/
theorem ei_scalar_quotient1_int_exact (bits : Nat) (nt : NumTraits)
    (hnt : nt.HasFloatingPoint = false) (a c : Int)
    (ha : CInt.InRange bits a) (_hc : CInt.InRange bits c) (hc0 : c ≠ 0)
    (hov : ¬ (a = CInt.minVal bits ∧ c = -1)) :
    ei_scalar_quotient1_impl.call
        (ei_scalar_quotient1_impl.ctor false (CInt.ofInt bits c)) (CInt.ofInt bits a)
      = CInt.ofInt bits a / CInt.ofInt bits c
    ∧ ei_scalar_quotient1_op.call
        (ei_scalar_quotient1_op.ctor nt (CInt.ofInt bits c)) (CInt.ofInt bits a)
      = CInt.ofInt bits a / CInt.ofInt bits c
    ∧ CInt.ofInt bits a / CInt.ofInt bits c = CInt.ofInt bits (Int.tdiv a c)
    ∧ CInt.InRange bits (Int.tdiv a c)
    ∧ (Int.tdiv a c).natAbs = a.natAbs / c.natAbs
    ∧ (0 ≤ a * c → 0 ≤ Int.tdiv a c) ∧ (a * c ≤ 0 → Int.tdiv a c ≤ 0) := by
  refine ⟨rfl, ?_, CInt.div_ofInt bits a c hc0 hov, tdiv_inRange bits a c ha hc0 hov,
    tdiv_trunc a c⟩
  obtain ⟨ic, hfp, ac, mc⟩ := nt
  simp only at hnt
  subst hnt
  rfl

/-- Instance of C3: on 32-bit `int`, the functor constructed with `2` yields `3` at `7`
and `-3` at `-7`. -/
theorem ei_scalar_quotient1_int_exact_witness :
    (CInt.InRange 32 7 ∧ CInt.InRange 32 2 ∧ (2 : Int) ≠ 0
      ∧ ¬ ((7 : Int) = CInt.minVal 32 ∧ (2 : Int) = -1))
    ∧ ei_scalar_quotient1_impl.call
        (ei_scalar_quotient1_impl.ctor false (CInt.ofInt 32 2)) (CInt.ofInt 32 7)
      = CInt.ofInt 32 3
    ∧ ei_scalar_quotient1_impl.call
        (ei_scalar_quotient1_impl.ctor false (CInt.ofInt 32 2)) (CInt.ofInt 32 (-7))
      = CInt.ofInt 32 (-3) := by
  have h7 := ei_scalar_quotient1_int_exact 32 ⟨false, false, 1, 1⟩ rfl 7 2
    (by decide) (by decide) (by decide) (by decide)
  have hm7 := ei_scalar_quotient1_int_exact 32 ⟨false, false, 1, 1⟩ rfl (-7) 2
    (by decide) (by decide) (by decide) (by decide)
  refine ⟨by decide, ?_, ?_⟩
  · rw [h7.1, h7.2.2.1]; rfl
  · rw [hm7.1, hm7.2.2.1]; rfl

/-- C4: for the floating strategy over exact field arithmetic, every `a` and every
`c != 0`: the functor constructed with `c` stores the reciprocal `1/c` (the stored value
times `c` is `1`), and applied to `a` it returns `a * (1/c)`, which equals `a / c`.  This
is so for `ei_scalar_quotient1_impl<Scalar,true>` and for `ei_scalar_quotient1_op<Scalar>`
when `NumTraits<Scalar>::HasFloatingPoint` is true. -/
theorem ei_scalar_quotient1_float_exact {S : Type} [Field S] (nt : NumTraits)
    (hnt : nt.HasFloatingPoint = true) (a c : S) (hc : c ≠ 0) :
    (ei_scalar_quotient1_impl.ctor true c).m_other = 1 / c
    ∧ (ei_scalar_quotient1_impl.ctor true c).m_other * c = 1
    ∧ ei_scalar_quotient1_impl.call (ei_scalar_quotient1_impl.ctor true c) a = a * (1 / c)
    ∧ ei_scalar_quotient1_impl.call (ei_scalar_quotient1_impl.ctor true c) a = a / c
    ∧ ei_scalar_quotient1_op.call (ei_scalar_quotient1_op.ctor nt c) a = a / c := by
  have h : ei_scalar_quotient1_impl.call (ei_scalar_quotient1_impl.ctor true c) a
      = a / c := by
    show a * (1 / c) = a / c
    rw [mul_one_div]
  refine ⟨rfl, ?_, rfl, h, ?_⟩
  · show 1 / c * c = 1
    rw [one_div, inv_mul_cancel₀ hc]
  · obtain ⟨ic, hfp, ac, mc⟩ := nt
    simp only at hnt
    subst hnt
    exact h

/-- Instance of C4: over the rationals, the functor constructed with `2` yields `7/2` at
`7`. -/
theorem ei_scalar_quotient1_float_exact_witness :
    (2 : ℚ) ≠ 0
    ∧ ei_scalar_quotient1_impl.call (ei_scalar_quotient1_impl.ctor true (2 : ℚ)) 7
      = 7 / 2 :=
  ⟨by norm_num,
    (ei_scalar_quotient1_float_exact ⟨false, true, 1, 1⟩ rfl (7 : ℚ) 2 (by norm_num)).2.2.2.1⟩

/-! ## Scalar multiple -/

/-- C5: `ei_scalar_multiple_op` constructed with `c` and applied to `a` returns `a * c` in
the non-vectorized specialisation and in the vectorized one, so the two specialisations
return the same value. -/
theorem ei_scalar_multiple_op_call_eq {S : Type} [Mul S] {w : Nat} (hw : 0 < w)
    (c a : S) :
    ei_scalar_multiple_op.call hw (ei_scalar_multiple_op.ctor w false c) a = a * c
    ∧ ei_scalar_multiple_op.call hw (ei_scalar_multiple_op.ctor w true c) a = a * c
    ∧ ei_scalar_multiple_op.call hw (ei_scalar_multiple_op.ctor w true c) a
      = ei_scalar_multiple_op.call hw (ei_scalar_multiple_op.ctor w false c) a :=
  ⟨rfl, rfl, rfl⟩

/-- Instance of C5: on integers with batch width `4`, the functor constructed with `3`
yields `12` at `4` in both specialisations. -/
theorem ei_scalar_multiple_op_call_eq_witness :
    0 < 4
    ∧ ei_scalar_multiple_op.call (by decide : 0 < 4)
        (ei_scalar_multiple_op.ctor 4 false (3 : Int)) 4 = 12
    ∧ ei_scalar_multiple_op.call (by decide : 0 < 4)
        (ei_scalar_multiple_op.ctor 4 true (3 : Int)) 4 = 12 :=
  ⟨by decide,
    (ei_scalar_multiple_op_call_eq (by decide : 0 < 4) (3 : Int) 4).1.trans (by decide),
    (ei_scalar_multiple_op_call_eq (by decide : 0 < 4) (3 : Int) 4).2.1.trans (by decide)⟩

/-- C6: for every constant `c`, every batch `p` of width `w` and every lane `i`, lane `i`
of `packetOp(p)` of the vectorized `ei_scalar_multiple_op` constructed with `c` is the
scalar form applied to lane `i` of `p`, that is `p[i] * c`. -/
theorem ei_scalar_multiple_op_packetOp_lane {S : Type} [Mul S] {w : Nat} (hw : 0 < w)
    (c : S) (p : Packet S w) (i : Fin w) :
    ei_scalar_multiple_op.packetOp (ei_scalar_multiple_op.ctor w true c) p i
      = ei_scalar_multiple_op.call hw (ei_scalar_multiple_op.ctor w true c) (p i)
    ∧ ei_scalar_multiple_op.packetOp (ei_scalar_multiple_op.ctor w true c) p i
      = p i * c :=
  ⟨rfl, rfl⟩

/-- Instance of C6: the functor constructed with `3` maps the 4-wide batch `[1,2,3,4]` to
`[3,6,9,12]`. -/
theorem ei_scalar_multiple_op_packetOp_lane_witness :
    0 < 4
    ∧ ei_scalar_multiple_op.packetOp (ei_scalar_multiple_op.ctor 4 true (3 : Int))
        ![1, 2, 3, 4] = ![3, 6, 9, 12] := by
  refine ⟨by decide, ?_⟩
  funext i
  rw [(ei_scalar_multiple_op_packetOp_lane (by decide : 0 < 4) (3 : Int)
    ![1, 2, 3, 4] i).2]
  fin_cases i <;> rfl

/-! ## Batched and scalar forms of the binary functors -/

/-- On a linear order, `std::min` is the minimum. -/
theorem std_min_eq_min {S : Type} [LinearOrder S] (a b : S) : std_min a b = min a b := by
  unfold std_min
  rcases lt_or_le b a with h | h
  · rw [if_pos h, min_eq_right h.le]
  · rw [if_neg (not_lt.2 h), min_eq_left h]

/-- On a linear order, `std::max` is the maximum. -/
theorem std_max_eq_max {S : Type} [LinearOrder S] (a b : S) : std_max a b = max a b := by
  unfold std_max
  rcases lt_or_le a b with h | h
  · rw [if_pos h, max_eq_right h.le]
  · rw [if_neg (not_lt.2 h), max_eq_left h]

/-- C7: for sum, product, min, max and difference, for every scalar type (whether or
not its comparison is a total order), every pair of batches `a`, `b` of the same width
and every lane `i`, lane `i` of `packetOp(a, b)` is the scalar form `operator()` applied
to the lanes `i` of `a` and `b`. -/
theorem binary_packetOp_lane {S : Type} [LT S] [DecidableRel (fun x y : S => x < y)]
    [Add S] [Mul S] [Sub S] {w : Nat} (a b : Packet S w) (i : Fin w) :
    ei_scalar_sum_op.packetOp a b i = ei_scalar_sum_op.call (a i) (b i)
    ∧ ei_scalar_product_op.packetOp a b i = ei_scalar_product_op.call (a i) (b i)
    ∧ ei_scalar_min_op.packetOp a b i = ei_scalar_min_op.call (a i) (b i)
    ∧ ei_scalar_max_op.packetOp a b i = ei_scalar_max_op.call (a i) (b i)
    ∧ ei_scalar_difference_op.packetOp a b i
      = ei_scalar_difference_op.call (a i) (b i) :=
  ⟨rfl, rfl, rfl, rfl, rfl⟩

/-- Instances of C7: on integers, the five batched forms on the 4-wide batches
`[1,-2,3,4]` and `[5,6,-7,4]`; and on the floating type `Float`, whose comparison is not
a total order, the min and max lanes of a batch of not-a-number values and a batch of
ones. -/
theorem binary_packetOp_lane_witness :
    (ei_scalar_sum_op.packetOp (![1, -2, 3, 4] : Packet Int 4) ![5, 6, -7, 4]
        = ![6, 4, -4, 8]
      ∧ ei_scalar_product_op.packetOp (![1, -2, 3, 4] : Packet Int 4) ![5, 6, -7, 4]
        = ![5, -12, -21, 16]
      ∧ ei_scalar_min_op.packetOp (![1, -2, 3, 4] : Packet Int 4) ![5, 6, -7, 4]
        = ![1, -2, -7, 4]
      ∧ ei_scalar_max_op.packetOp (![1, -2, 3, 4] : Packet Int 4) ![5, 6, -7, 4]
        = ![5, 6, 3, 4]
      ∧ ei_scalar_difference_op.packetOp (![1, -2, 3, 4] : Packet Int 4) ![5, 6, -7, 4]
        = ![-4, -8, 10, 0])
    ∧ (ei_scalar_min_op.packetOp (fun _ => (0 / 0 : Float)) (fun _ => (1 : Float))
          (0 : Fin 4)
        = ei_scalar_min_op.call (0 / 0 : Float) (1 : Float)
      ∧ ei_scalar_max_op.packetOp (fun _ => (1 : Float)) (fun _ => (0 / 0 : Float))
          (0 : Fin 4)
        = ei_scalar_max_op.call (1 : Float) (0 / 0 : Float)) := by
  refine ⟨⟨?_, ?_, ?_, ?_, ?_⟩, ?_, ?_⟩
  · funext i
    rw [(binary_packetOp_lane (![1, -2, 3, 4] : Packet Int 4) ![5, 6, -7, 4] i).1]
    fin_cases i <;> rfl
  · funext i
    rw [(binary_packetOp_lane (![1, -2, 3, 4] : Packet Int 4) ![5, 6, -7, 4] i).2.1]
    fin_cases i <;> rfl
  · funext i
    rw [(binary_packetOp_lane (![1, -2, 3, 4] : Packet Int 4) ![5, 6, -7, 4] i).2.2.1]
    fin_cases i <;> rfl
  · funext i
    rw [(binary_packetOp_lane (![1, -2, 3, 4] : Packet Int 4) ![5, 6, -7, 4] i).2.2.2.1]
    fin_cases i <;> rfl
  · funext i
    rw [(binary_packetOp_lane (![1, -2, 3, 4] : Packet Int 4) ![5, 6, -7, 4] i).2.2.2.2]
    fin_cases i <;> rfl
  · exact (binary_packetOp_lane (fun _ => (0 / 0 : Float)) (fun _ => (1 : Float))
      (0 : Fin 4)).2.2.1
  · exact (binary_packetOp_lane (fun _ => (1 : Float)) (fun _ => (0 / 0 : Float))
      (0 : Fin 4)).2.2.2.1

/-! ## Traits of the unary functors -/

/-- C8, as the code has it: the `Cost` of `ei_scalar_cast_op<Scalar, NewType>` is zero when
`Scalar` and `NewType` are the same type and is the additive-cost unit of `NewType`
otherwise; so it is zero exactly when the two types are the same or that unit is zero,
and for a `NewType` whose additive-cost unit is not zero it is zero exactly when the two
types are the same.  `PacketAccess` is false. -/
theorem ei_scalar_cast_op_traits_cost {Ty : Type} [DecidableEq Ty] (NT : Ty → NumTraits)
    (Scalar NewType : Ty) :
    (Scalar = NewType → (ei_scalar_cast_op.traits NT Scalar NewType).Cost = 0)
    ∧ (Scalar ≠ NewType →
        (ei_scalar_cast_op.traits NT Scalar NewType).Cost = (NT NewType).AddCost)
    ∧ ((ei_scalar_cast_op.traits NT Scalar NewType).Cost = 0
        ↔ Scalar = NewType ∨ (NT NewType).AddCost = 0)
    ∧ ((NT NewType).AddCost ≠ 0 →
        ((ei_scalar_cast_op.traits NT Scalar NewType).Cost = 0 ↔ Scalar = NewType))
    ∧ (ei_scalar_cast_op.traits NT Scalar NewType).PacketAccess = false := by
  unfold ei_scalar_cast_op.traits ei_is_same_type
  by_cases h : Scalar = NewType
  · simp [h]
  · simp [h]

/-- Instance of C8 as amended: casting between two types named `"int"` and `"float"`,
both with additive-cost unit `1`, costs `1`; casting `"int"` to itself costs `0`. -/
theorem ei_scalar_cast_op_traits_cost_witness :
    ("int" ≠ "float" ∧ (1 : Int) ≠ 0)
    ∧ (ei_scalar_cast_op.traits (fun _ : String => ⟨false, false, 1, 1⟩)
        "int" "float").Cost = 1
    ∧ (ei_scalar_cast_op.traits (fun _ : String => ⟨false, false, 1, 1⟩)
        "int" "int").Cost = 0 :=
  ⟨by decide,
    (ei_scalar_cast_op_traits_cost (fun _ : String => ⟨false, false, 1, 1⟩)
      "int" "float").2.1 (by decide),
    (ei_scalar_cast_op_traits_cost (fun _ : String => ⟨false, false, 1, 1⟩)
      "int" "int").1 rfl⟩

/-- C8 as stated fails: for two different types, the target one with additive-cost unit
`0`, the cast `Cost` is zero although the types differ. -/
theorem ei_scalar_cast_op_traits_cost_counterexample :
    "int" ≠ "free"
    ∧ (ei_scalar_cast_op.traits
        (fun name : String => if name = "free" then ⟨false, false, 0, 0⟩
          else ⟨false, false, 1, 1⟩)
        "int" "free").Cost = 0 := by
  decide

/-- C9: the `Cost` of `ei_scalar_conjugate_op` is zero when the scalar type is real-valued
(`NumTraits<Scalar>::IsComplex` false) and is the additive-cost unit of the type when it
is complex-valued; `PacketAccess` is false in both cases. -/
theorem ei_scalar_conjugate_op_traits_cost (nt : NumTraits) :
    (nt.IsComplex = false → (ei_scalar_conjugate_op.traits nt).Cost = 0)
    ∧ (nt.IsComplex = true → (ei_scalar_conjugate_op.traits nt).Cost = nt.AddCost)
    ∧ (ei_scalar_conjugate_op.traits nt).PacketAccess = false := by
  unfold ei_scalar_conjugate_op.traits
  refine ⟨fun h => ?_, fun h => ?_, rfl⟩
  · simp [h]
  · simp [h]

/-- Instance of C9: a real type with additive-cost unit `1` and a complex type with
additive-cost unit `2`. -/
theorem ei_scalar_conjugate_op_traits_cost_witness :
    (ei_scalar_conjugate_op.traits ⟨false, true, 1, 1⟩).Cost = 0
    ∧ (ei_scalar_conjugate_op.traits ⟨true, true, 2, 6⟩).Cost = 2 :=
  ⟨(ei_scalar_conjugate_op_traits_cost ⟨false, true, 1, 1⟩).1 rfl,
    (ei_scalar_conjugate_op_traits_cost ⟨true, true, 2, 6⟩).2.1 rfl⟩

/-! ## Repeatable generators -/

/-- C10, as the code has it: both nullary functors are flagged `IsRepeatable = true`.
`ei_scalar_constant_op`, in either specialisation, returns the same value whatever the
coordinates.  `ei_scalar_identity_op` returns the same value at two coordinate pairs
whenever both are on the diagonal or both are off it, in particular at equal coordinates;
and where `Scalar(1)` differs from `Scalar(0)` only then. -/
theorem repeatable_generators_call {S : Type} [One S] [Zero S] {w : Nat} (hw : 0 < w)
    (nt : NumTraits) (size : Nat) (c : S) (pa : Bool) (r1 c1 r2 c2 : Int) :
    (ei_scalar_constant_op.traits size).IsRepeatable = some true
    ∧ (ei_scalar_identity_op.traits nt).IsRepeatable = some true
    ∧ ei_scalar_constant_op.call hw (ei_scalar_constant_op.ctor w pa c) r1 c1
      = ei_scalar_constant_op.call hw (ei_scalar_constant_op.ctor w pa c) r2 c2
    ∧ (((r1 = c1) ↔ (r2 = c2)) →
        (ei_scalar_identity_op.call r1 c1 : S) = ei_scalar_identity_op.call r2 c2)
    ∧ ((1 : S) ≠ 0 →
        ((ei_scalar_identity_op.call r1 c1 : S) = ei_scalar_identity_op.call r2 c2
          ↔ ((r1 = c1) ↔ (r2 = c2)))) := by
  refine ⟨rfl, rfl, ?_, ?_, ?_⟩
  · cases pa <;> rfl
  · intro h
    unfold ei_scalar_identity_op.call
    by_cases h1 : r1 = c1
    · rw [if_pos h1, if_pos (h.1 h1)]
    · rw [if_neg h1, if_neg (fun h2 => h1 (h.2 h2))]
  · intro h10
    unfold ei_scalar_identity_op.call
    by_cases h1 : r1 = c1 <;> by_cases h2 : r2 = c2
    · simp [h1, h2]
    · simp [h1, h2, h10]
    · simp [h1, h2, Ne.symm h10]
    · simp [h1, h2]

/-- Instance of C10 as amended: on integers, the constant `5` at `(0,0)` and at `(2,7)`,
and the identity pattern at the two diagonal pairs `(0,0)` and `(3,3)`. -/
theorem repeatable_generators_call_witness :
    0 < 4
    ∧ ei_scalar_constant_op.call (by decide : 0 < 4)
        (ei_scalar_constant_op.ctor 4 true (5 : Int)) 0 0
      = ei_scalar_constant_op.call (by decide : 0 < 4)
        (ei_scalar_constant_op.ctor 4 true (5 : Int)) 2 7
    ∧ (ei_scalar_identity_op.call 0 0 : Int) = ei_scalar_identity_op.call 3 3 :=
  ⟨by decide,
    (repeatable_generators_call (by decide : 0 < 4) ⟨false, false, 1, 1⟩ 4 (5 : Int) true
      0 0 2 7).2.2.1,
    (repeatable_generators_call (by decide : 0 < 4) ⟨false, false, 1, 1⟩ 4 (5 : Int) true
      0 0 3 3).2.2.2.1 (by decide)⟩

/-- C10 as stated fails: `ei_scalar_identity_op` is flagged `IsRepeatable = true`, and on
integers it returns `1` at `(0,0)` and `0` at `(0,1)`. -/
theorem repeatable_generators_call_counterexample :
    (ei_scalar_identity_op.traits ⟨false, false, 1, 1⟩).IsRepeatable = some true
    ∧ (ei_scalar_identity_op.call 0 0 : Int) = 1
    ∧ (ei_scalar_identity_op.call 0 1 : Int) = 0
    ∧ (ei_scalar_identity_op.call 0 0 : Int) ≠ ei_scalar_identity_op.call 0 1 := by
  decide

/-! ## Algebra of the associative functors -/

/-- C11: over exact scalars with a total order (the integers and the rationals among
them), each of sum, product, min and max is commutative and associative. -/
theorem associative_functors_comm_assoc {S : Type} [CommRing S] [LinearOrder S]
    (a b c : S) :
    (ei_scalar_sum_op.call a b = ei_scalar_sum_op.call b a
      ∧ ei_scalar_sum_op.call (ei_scalar_sum_op.call a b) c
        = ei_scalar_sum_op.call a (ei_scalar_sum_op.call b c))
    ∧ (ei_scalar_product_op.call a b = ei_scalar_product_op.call b a
      ∧ ei_scalar_product_op.call (ei_scalar_product_op.call a b) c
        = ei_scalar_product_op.call a (ei_scalar_product_op.call b c))
    ∧ (ei_scalar_min_op.call a b = ei_scalar_min_op.call b a
      ∧ ei_scalar_min_op.call (ei_scalar_min_op.call a b) c
        = ei_scalar_min_op.call a (ei_scalar_min_op.call b c))
    ∧ (ei_scalar_max_op.call a b = ei_scalar_max_op.call b a
      ∧ ei_scalar_max_op.call (ei_scalar_max_op.call a b) c
        = ei_scalar_max_op.call a (ei_scalar_max_op.call b c)) := by
  refine ⟨⟨add_comm a b, add_assoc a b c⟩, ⟨mul_comm a b, mul_assoc a b c⟩, ⟨?_, ?_⟩,
    ⟨?_, ?_⟩⟩
  · simp only [ei_scalar_min_op.call, std_min_eq_min]
    exact min_comm a b
  · simp only [ei_scalar_min_op.call, std_min_eq_min]
    exact min_assoc a b c
  · simp only [ei_scalar_max_op.call, std_max_eq_max]
    exact max_comm a b
  · simp only [ei_scalar_max_op.call, std_max_eq_max]
    exact max_assoc a b c

/-- Instance of C11 on the integers and on the rationals. -/
theorem associative_functors_comm_assoc_witness :
    ei_scalar_min_op.call (ei_scalar_min_op.call (5 : Int) (-2)) 3
      = ei_scalar_min_op.call (5 : Int) (ei_scalar_min_op.call (-2) 3)
    ∧ ei_scalar_product_op.call (2 / 3 : ℚ) 5 = ei_scalar_product_op.call 5 (2 / 3 : ℚ) :=
  ⟨(associative_functors_comm_assoc (5 : Int) (-2) 3).2.2.1.2,
    (associative_functors_comm_assoc (2 / 3 : ℚ) 5 0).2.1.1⟩

/-! ## Traits of the quotient functors -/

/-- C12: `ei_scalar_quotient_op` returns `a / b`; its traits declare
`PacketAccess = false` and `Cost` twice the multiplicative-cost unit of the type, and the
batch width of the type does not enter them. -/
theorem ei_scalar_quotient_op_call_traits {S Ty : Type} [Div S] [DecidableEq Ty]
    (a b : S) (nt : NumTraits) (NT : Ty → NumTraits) (size : Ty → Nat) (Scalar : Ty) :
    ei_scalar_quotient_op.call a b = a / b
    ∧ (ei_scalar_quotient_op.traits nt).PacketAccess = false
    ∧ (ei_scalar_quotient_op.traits nt).Cost = 2 * nt.MulCost
    ∧ ((ScalarFunctor.quotient Scalar).traits NT size).PacketAccess = false
    ∧ ((ScalarFunctor.quotient Scalar).traits NT size).Cost = 2 * (NT Scalar).MulCost :=
  ⟨rfl, rfl, rfl, rfl, rfl⟩

/-- Instance of C12: the quotient of `7` by `2` is `7/2` on the rationals and `3` on
32-bit `int`; for a type of batch width `4` and multiplicative-cost unit `3` the traits
are `Cost = 6`, `PacketAccess = false`. -/
theorem ei_scalar_quotient_op_call_traits_witness :
    ei_scalar_quotient_op.call (7 : ℚ) 2 = 7 / 2
    ∧ ei_scalar_quotient_op.call (CInt.ofInt 32 7) (CInt.ofInt 32 2) = CInt.ofInt 32 3
    ∧ ((ScalarFunctor.quotient ()).traits (fun _ : Unit => ⟨false, true, 1, 3⟩)
        (fun _ => 4)).Cost = 6
    ∧ ((ScalarFunctor.quotient ()).traits (fun _ : Unit => ⟨false, true, 1, 3⟩)
        (fun _ => 4)).PacketAccess = false :=
  ⟨(ei_scalar_quotient_op_call_traits (7 : ℚ) 2 ⟨false, true, 1, 3⟩
      (fun _ : Unit => ⟨false, true, 1, 3⟩) (fun _ => 4) ()).1,
    by decide, by decide, by decide⟩

/-- C13: `ei_scalar_quotient1_op<Scalar>` is the strategy
`ei_scalar_quotient1_impl<Scalar, NumTraits<Scalar>::HasFloatingPoint>`: it multiplies by
the stored `Scalar(1) / c` when the flag is true and divides by the stored `c` when it is
false.  The traits of the floating strategy have `Cost` the multiplicative-cost unit,
those of the non-floating strategy twice that unit, and both have
`PacketAccess = false`, whatever the batch width. -/
theorem ei_scalar_quotient1_strategy_traits {S Ty : Type} [One S] [Mul S] [Div S]
    [DecidableEq Ty] (nt : NumTraits) (c a : S) (NT : Ty → NumTraits) (size : Ty → Nat)
    (Scalar : Ty) :
    ei_scalar_quotient1_op S nt = ei_scalar_quotient1_impl S nt.HasFloatingPoint
    ∧ (nt.HasFloatingPoint = true →
        ei_scalar_quotient1_op.call (ei_scalar_quotient1_op.ctor nt c) a = a * (1 / c))
    ∧ (nt.HasFloatingPoint = false →
        ei_scalar_quotient1_op.call (ei_scalar_quotient1_op.ctor nt c) a = a / c)
    ∧ (ei_scalar_quotient1_impl.traits nt true).Cost = nt.MulCost
    ∧ (ei_scalar_quotient1_impl.traits nt false).Cost = 2 * nt.MulCost
    ∧ (∀ hfp : Bool, (ei_scalar_quotient1_impl.traits nt hfp).PacketAccess = false)
    ∧ (∀ hfp : Bool,
        ((ScalarFunctor.quotient1_impl Scalar hfp).traits NT size).PacketAccess = false
        ∧ ((ScalarFunctor.quotient1_impl Scalar hfp).traits NT size).Cost
          = if hfp then (NT Scalar).MulCost else 2 * (NT Scalar).MulCost) := by
  refine ⟨rfl, ?_, ?_, rfl, rfl, ?_, ?_⟩
  · intro h
    obtain ⟨ic, hfp, ac, mc⟩ := nt
    simp only at h
    subst h
    rfl
  · intro h
    obtain ⟨ic, hfp, ac, mc⟩ := nt
    simp only at h
    subst h
    rfl
  · intro hfp
    cases hfp <;> rfl
  · intro hfp
    cases hfp <;> exact ⟨rfl, rfl⟩

/-- Instance of C13: for a floating type the functor built from `2` maps `7` to `7/2`; for
32-bit `int` it maps `7` to `3`; with multiplicative-cost unit `3` the costs are `3` and
`6`. -/
theorem ei_scalar_quotient1_strategy_traits_witness :
    ei_scalar_quotient1_op.call
        (ei_scalar_quotient1_op.ctor ⟨false, true, 1, 3⟩ (2 : ℚ)) 7 = 7 * (1 / 2)
    ∧ ei_scalar_quotient1_op.call
        (ei_scalar_quotient1_op.ctor ⟨false, false, 1, 3⟩ (CInt.ofInt 32 2)) (CInt.ofInt 32 7)
      = CInt.ofInt 32 3
    ∧ (ei_scalar_quotient1_impl.traits ⟨false, true, 1, 3⟩ true).Cost = 3
    ∧ (ei_scalar_quotient1_impl.traits ⟨false, false, 1, 3⟩ false).Cost = 6 :=
  ⟨(ei_scalar_quotient1_strategy_traits ⟨false, true, 1, 3⟩ (2 : ℚ) 7
      (fun _ : Unit => ⟨false, true, 1, 3⟩) (fun _ => 4) ()).2.1 rfl,
    ((ei_scalar_quotient1_strategy_traits ⟨false, false, 1, 3⟩ (CInt.ofInt 32 2)
      (CInt.ofInt 32 7) (fun _ : Unit => ⟨false, false, 1, 3⟩) (fun _ => 1) ()).2.2.1
      rfl).trans (by decide),
    by decide, by decide⟩

/-! ## Costs and vectorizability across the catalog -/

/-- The default template argument is true exactly when the batch width exceeds `1`. -/
theorem defaultPacketAccess_eq_true_iff (size : Nat) :
    defaultPacketAccess size = true ↔ size > 1 := by
  unfold defaultPacketAccess
  by_cases h : size > 1 <;> simp [h]

/-- C14: for every scalar type, of batch width `size Scalar`: the traits of sum, min, max
and difference have `Cost` the additive-cost unit, those of product and scalar-multiple the
multiplicative-cost unit; for sum, product, min, max, difference, scalar-multiple and
constant-fill `PacketAccess` is true if and only if the batch width exceeds `1`; these
seven are exactly the functors with a batched form; and whenever the traits of a functor
of the catalog flag `PacketAccess = true`, the struct that is instantiated defines
`packetOp`. -/
theorem catalog_cost_packetAccess {Ty : Type} [DecidableEq Ty] (NT : Ty → NumTraits)
    (size : Ty → Nat) (Scalar : Ty) (f : ScalarFunctor Ty) :
    (((ScalarFunctor.sum Scalar).traits NT size).Cost = (NT Scalar).AddCost
      ∧ ((ScalarFunctor.min Scalar).traits NT size).Cost = (NT Scalar).AddCost
      ∧ ((ScalarFunctor.max Scalar).traits NT size).Cost = (NT Scalar).AddCost
      ∧ ((ScalarFunctor.difference Scalar).traits NT size).Cost = (NT Scalar).AddCost
      ∧ ((ScalarFunctor.product Scalar).traits NT size).Cost = (NT Scalar).MulCost
      ∧ ((ScalarFunctor.multiple Scalar).traits NT size).Cost = (NT Scalar).MulCost)
    ∧ ((((ScalarFunctor.sum Scalar).traits NT size).PacketAccess = true ↔ size Scalar > 1)
      ∧ (((ScalarFunctor.product Scalar).traits NT size).PacketAccess = true
          ↔ size Scalar > 1)
      ∧ (((ScalarFunctor.min Scalar).traits NT size).PacketAccess = true ↔ size Scalar > 1)
      ∧ (((ScalarFunctor.max Scalar).traits NT size).PacketAccess = true ↔ size Scalar > 1)
      ∧ (((ScalarFunctor.difference Scalar).traits NT size).PacketAccess = true
          ↔ size Scalar > 1)
      ∧ (((ScalarFunctor.multiple Scalar).traits NT size).PacketAccess = true
          ↔ size Scalar > 1)
      ∧ (((ScalarFunctor.constant Scalar).traits NT size).PacketAccess = true
          ↔ size Scalar > 1))
    ∧ (f.hasBatchedForm = true
        ↔ ∃ s, f = .sum s ∨ f = .product s ∨ f = .min s ∨ f = .max s ∨ f = .difference s
            ∨ f = .multiple s ∨ f = .constant s)
    ∧ ((f.traits NT size).PacketAccess = true → f.definesPacketOp size = true)
    ∧ ((f.traits NT size).PacketAccess = true → f.hasBatchedForm = true) := by
  have hd : ∀ n : Nat, decide (n > 1) = true ↔ n > 1 := fun n => decide_eq_true_iff
  refine ⟨⟨rfl, rfl, rfl, rfl, rfl, rfl⟩,
    ⟨hd _, hd _, hd _, hd _, hd _, hd _, hd _⟩, ?_, ?_, ?_⟩
  · cases f <;> simp [ScalarFunctor.hasBatchedForm]
  · cases f <;>
      simp [ScalarFunctor.traits, ScalarFunctor.definesPacketOp, ei_scalar_sum_op.traits,
        ei_scalar_product_op.traits, ei_scalar_min_op.traits, ei_scalar_max_op.traits,
        ei_scalar_difference_op.traits, ei_scalar_quotient_op.traits,
        ei_scalar_opposite_op.traits, ei_scalar_abs_op.traits, ei_scalar_abs2_op.traits,
        ei_scalar_conjugate_op.traits, ei_scalar_cast_op.traits, ei_scalar_real_op.traits,
        ei_scalar_multiple_op.traits, ei_scalar_constant_op.traits,
        ei_scalar_identity_op.traits, defaultPacketAccess]
    case quotient1_impl s hfp => cases hfp <;> simp [ei_scalar_quotient1_impl.traits]
  · cases f <;>
      simp [ScalarFunctor.traits, ScalarFunctor.hasBatchedForm,
        ei_scalar_quotient_op.traits,
        ei_scalar_opposite_op.traits, ei_scalar_abs_op.traits, ei_scalar_abs2_op.traits,
        ei_scalar_conjugate_op.traits, ei_scalar_cast_op.traits, ei_scalar_real_op.traits,
        ei_scalar_identity_op.traits]
    case quotient1_impl s hfp => cases hfp <;> simp [ei_scalar_quotient1_impl.traits]

/-- Instance of C14: for a type of batch width `4` with cost units `1` and `3`, the sum is
vectorizable with cost `1` and the scalar multiple with cost `3`; for a type of batch
width `1` the constant fill is not vectorizable. -/
theorem catalog_cost_packetAccess_witness :
    ((ScalarFunctor.sum ()).traits (fun _ : Unit => ⟨false, true, 1, 3⟩) (fun _ => 4))
      = ⟨1, true, none⟩
    ∧ ((ScalarFunctor.multiple ()).traits (fun _ : Unit => ⟨false, true, 1, 3⟩)
        (fun _ => 4)) = ⟨3, true, none⟩
    ∧ ((ScalarFunctor.constant ()).traits (fun _ : Unit => ⟨false, true, 1, 3⟩)
        (fun _ => 1)).PacketAccess = false
    ∧ (ScalarFunctor.sum ()).definesPacketOp (fun _ : Unit => 4) = true :=
  ⟨by decide, by decide, by decide,
    (catalog_cost_packetAccess (fun _ : Unit => ⟨false, true, 1, 3⟩) (fun _ => 4) ()
      (ScalarFunctor.sum ())).2.2.2.1 (by decide)⟩

/-! ## The two quotient strategies on integers -/

/-- The truncated quotient of `1` by an integer of magnitude above `1` is `0`. -/
theorem tdiv_one_eq_zero {c : Int} (hc : 1 < c.natAbs) : Int.tdiv 1 c = 0 := by
  have h := (tdiv_trunc 1 c).1
  rw [Int.natAbs_one, Nat.div_eq_of_lt hc] at h
  exact Int.natAbs_eq_zero.1 h

/-- The truncated quotient is not `0` when the dividend is at least as large in magnitude
as the non-zero divisor. -/
theorem tdiv_ne_zero {a c : Int} (hc : 0 < c.natAbs) (hac : c.natAbs ≤ a.natAbs) :
    Int.tdiv a c ≠ 0 := by
  intro h0
  have h := (tdiv_trunc a c).1
  rw [h0, Int.natAbs_zero] at h
  have : 0 < a.natAbs / c.natAbs := Nat.div_pos hac hc
  omega

/-- Zero is a value of every signed integer type. -/
theorem CInt.inRange_zero (bits : Nat) : CInt.InRange bits 0 := by
  unfold CInt.InRange CInt.minVal CInt.maxVal
  have h : (0 : Int) < 2 ^ (bits - 1) := pow_pos (by decide) _
  constructor <;> omega

/-- C15: on integer scalars with truncating division the two strategies of
scalar-quotient-by-constant differ.  For every integer `c` with `|c| > 1` the reciprocal
strategy stores `0` and returns `0` for every `a`, whereas the true-division strategy
returns the truncated quotient of `a` by `c`, which is not `0` as soon as `|a| ≥ |c|`.
This holds on unbounded integers and, for representable `a` and `c`, on the signed
integer types of any width, where both results are defined. -/
theorem ei_scalar_quotient1_int_strategies_differ (bits : Nat) (a c : Int)
    (hc : 1 < c.natAbs) :
    ((ei_scalar_quotient1_impl.ctor true (ZInt.mk c)).m_other = ZInt.mk 0
      ∧ ei_scalar_quotient1_impl.call (ei_scalar_quotient1_impl.ctor true (ZInt.mk c))
          (ZInt.mk a) = ZInt.mk 0
      ∧ ei_scalar_quotient1_impl.call (ei_scalar_quotient1_impl.ctor false (ZInt.mk c))
          (ZInt.mk a) = ZInt.mk (Int.tdiv a c)
      ∧ (c.natAbs ≤ a.natAbs →
          ei_scalar_quotient1_impl.call (ei_scalar_quotient1_impl.ctor true (ZInt.mk c))
              (ZInt.mk a)
            ≠ ei_scalar_quotient1_impl.call
              (ei_scalar_quotient1_impl.ctor false (ZInt.mk c)) (ZInt.mk a)))
    ∧ (CInt.InRange bits a → CInt.InRange bits c →
        (ei_scalar_quotient1_impl.ctor true (CInt.ofInt bits c)).m_other = CInt.ofInt bits 0
        ∧ ei_scalar_quotient1_impl.call
            (ei_scalar_quotient1_impl.ctor true (CInt.ofInt bits c)) (CInt.ofInt bits a)
          = CInt.ofInt bits 0
        ∧ ei_scalar_quotient1_impl.call
            (ei_scalar_quotient1_impl.ctor false (CInt.ofInt bits c)) (CInt.ofInt bits a)
          = CInt.ofInt bits (Int.tdiv a c)) := by
  have h1 : Int.tdiv 1 c = 0 := tdiv_one_eq_zero hc
  have hz : (ei_scalar_quotient1_impl.ctor true (ZInt.mk c)).m_other = ZInt.mk 0 := by
    show ZInt.mk (Int.tdiv 1 c) = ZInt.mk 0
    rw [h1]
  have hzc : ei_scalar_quotient1_impl.call (ei_scalar_quotient1_impl.ctor true (ZInt.mk c))
      (ZInt.mk a) = ZInt.mk 0 := by
    show ZInt.mk (a * Int.tdiv 1 c) = ZInt.mk 0
    rw [h1, mul_zero]
  refine ⟨⟨hz, hzc, rfl, ?_⟩, ?_⟩
  · intro hac
    rw [hzc]
    show ZInt.mk 0 ≠ ZInt.mk (Int.tdiv a c)
    intro h
    have h0 : (0 : Int) = Int.tdiv a c := congrArg ZInt.val h
    exact tdiv_ne_zero (by omega) hac h0.symm
  · intro _ha _hc
    have hc0 : c ≠ 0 := by
      intro h
      subst h
      simp at hc
    have hcm : c ≠ -1 := by
      intro h
      subst h
      simp at hc
    have hr : (ei_scalar_quotient1_impl.ctor true (CInt.ofInt bits c)).m_other
        = CInt.ofInt bits 0 := by
      show CInt.ofInt bits 1 / CInt.ofInt bits c = CInt.ofInt bits 0
      rw [CInt.div_ofInt bits 1 c hc0 (fun h => hcm h.2), h1]
    refine ⟨hr, ?_, ?_⟩
    · show CInt.mul (CInt.ofInt bits a) (ei_scalar_quotient1_impl.ctor true
        (CInt.ofInt bits c)).m_other = CInt.ofInt bits 0
      rw [hr]
      show (if CInt.InRange bits (a * 0) then some (a * 0) else none) = some 0
      rw [mul_zero, if_pos (CInt.inRange_zero bits)]
    · show CInt.ofInt bits a / CInt.ofInt bits c = CInt.ofInt bits (Int.tdiv a c)
      exact CInt.div_ofInt bits a c hc0 (fun h => hcm h.2)

/-- Instance of C15: for `a = 7`, `c = 2` the reciprocal strategy yields `0` and the
true-division strategy yields `3`, on unbounded integers and on 32-bit `int`. -/
theorem ei_scalar_quotient1_int_strategies_differ_witness :
    1 < (2 : Int).natAbs
    ∧ ei_scalar_quotient1_impl.call (ei_scalar_quotient1_impl.ctor true (ZInt.mk 2))
        (ZInt.mk 7) = ZInt.mk 0
    ∧ ei_scalar_quotient1_impl.call (ei_scalar_quotient1_impl.ctor false (ZInt.mk 2))
        (ZInt.mk 7) = ZInt.mk 3
    ∧ ei_scalar_quotient1_impl.call
        (ei_scalar_quotient1_impl.ctor true (CInt.ofInt 32 2)) (CInt.ofInt 32 7)
      = CInt.ofInt 32 0
    ∧ ei_scalar_quotient1_impl.call
        (ei_scalar_quotient1_impl.ctor false (CInt.ofInt 32 2)) (CInt.ofInt 32 7)
      = CInt.ofInt 32 3 := by
  have h := ei_scalar_quotient1_int_strategies_differ 32 7 2 (by decide)
  exact ⟨by decide, h.1.2.1, h.1.2.2.1.trans (by decide),
    (h.2 (by decide) (by decide)).2.1, (h.2 (by decide) (by decide)).2.2.trans (by decide)⟩

/-! ## Min and max on a total order -/

/-- C16: on a totally ordered scalar type, `ei_scalar_min_op` returns one of its two
arguments, below both, and `ei_scalar_max_op` returns one of its two arguments, above
both; `std::min(a,b)` is `b` when `b < a` and `a` otherwise, `std::max(a,b)` is `b` when
`a < b` and `a` otherwise; so the sum of the min and the max is the sum of `a` and
`b`. -/
theorem ei_scalar_min_max_select {S : Type} [LinearOrder S] [AddCommMagma S] (a b : S) :
    ((ei_scalar_min_op.call a b = a ∨ ei_scalar_min_op.call a b = b)
      ∧ ei_scalar_min_op.call a b ≤ a ∧ ei_scalar_min_op.call a b ≤ b)
    ∧ ((ei_scalar_max_op.call a b = a ∨ ei_scalar_max_op.call a b = b)
      ∧ a ≤ ei_scalar_max_op.call a b ∧ b ≤ ei_scalar_max_op.call a b)
    ∧ ei_scalar_min_op.call a b = (if b < a then b else a)
    ∧ ei_scalar_max_op.call a b = (if a < b then b else a)
    ∧ ei_scalar_sum_op.call (ei_scalar_min_op.call a b) (ei_scalar_max_op.call a b)
      = ei_scalar_sum_op.call a b := by
  unfold ei_scalar_min_op.call ei_scalar_max_op.call ei_scalar_sum_op.call std_min std_max
  rcases lt_trichotomy a b with h | h | h
  · have h2 : ¬ b < a := not_lt.2 h.le
    simp only [if_pos h, if_neg h2]
    exact ⟨⟨Or.inl trivial, le_refl a, h.le⟩, ⟨Or.inr trivial, h.le, le_refl b⟩, trivial,
      trivial, trivial⟩
  · subst h
    simp only [if_neg (lt_irrefl a)]
    exact ⟨⟨Or.inl trivial, le_refl a, le_refl a⟩, ⟨Or.inl trivial, le_refl a, le_refl a⟩,
      trivial, trivial, trivial⟩
  · have h2 : ¬ a < b := not_lt.2 h.le
    simp only [if_pos h, if_neg h2]
    exact ⟨⟨Or.inr trivial, h.le, le_refl b⟩, ⟨Or.inl trivial, le_refl a, h.le⟩, trivial,
      trivial, add_comm b a⟩

/-- Instance of C16 on the integers: the min and the max of `5` and `-2`. -/
theorem ei_scalar_min_max_select_witness :
    ei_scalar_min_op.call (5 : Int) (-2) = -2
    ∧ ei_scalar_max_op.call (5 : Int) (-2) = 5
    ∧ ei_scalar_sum_op.call (ei_scalar_min_op.call (5 : Int) (-2))
        (ei_scalar_max_op.call (5 : Int) (-2)) = ei_scalar_sum_op.call (5 : Int) (-2) :=
  ⟨by decide, by decide, (ei_scalar_min_max_select (5 : Int) (-2)).2.2.2.2⟩

/-! ## Subtraction, negation and sum -/

/-- C19: over exact scalars (the integers and the rationals among them) the difference
of `a` and `b` is the sum of `a` and the opposite of `b`, the opposite of `a` is the
difference of `0` and `a`, the opposite of the opposite of `a` is `a`, and the sum of the
difference of `a` and `b` with `b` is `a`. -/
theorem difference_opposite_sum {S : Type} [AddGroup S] (a b : S) :
    ei_scalar_difference_op.call a b
      = ei_scalar_sum_op.call a (ei_scalar_opposite_op.call b)
    ∧ ei_scalar_opposite_op.call a = ei_scalar_difference_op.call 0 a
    ∧ ei_scalar_opposite_op.call (ei_scalar_opposite_op.call a) = a
    ∧ ei_scalar_sum_op.call (ei_scalar_difference_op.call a b) b = a :=
  ⟨sub_eq_add_neg a b, (zero_sub a).symm, neg_neg a, sub_add_cancel a b⟩

/-- Instance of C19 on the integers and on the rationals. -/
theorem difference_opposite_sum_witness :
    ei_scalar_sum_op.call (ei_scalar_difference_op.call (3 : Int) 10) 10 = 3
    ∧ ei_scalar_opposite_op.call (ei_scalar_opposite_op.call (2 / 3 : ℚ)) = 2 / 3 :=
  ⟨(difference_opposite_sum (3 : Int) 10).2.2.2, (difference_opposite_sum (2 / 3 : ℚ) 0).2.2.1⟩

/-! ## Absolute value and squared absolute value -/

/-- C17: over exact arithmetic, with `ei_abs` and `ei_abs2` by their standard definitions.
For a scalar `a` of any exact real type (the integers and the rationals among them),
`ei_scalar_abs_op` returns `|a|` and `ei_scalar_abs2_op` returns `|a|^2`, which is
`a * a`; both are non-negative and `abs2(a) = abs(a) * abs(a)`.  For a complex scalar
`x + iy` over any such type, `ei_scalar_abs2_op` returns the non-negative real
`x^2 + y^2` and `ei_scalar_abs_op` the square root of it, whatever the square root of the
type; and over the real numbers with their square root, `ei_scalar_abs_op` returns a
non-negative real whose square is what `ei_scalar_abs2_op` returns. -/
theorem ei_scalar_abs_abs2 {R : Type} [LinearOrderedRing R] (sqrt : R → R) (a : R)
    (z : ei_complex R) (u : ei_complex ℝ) :
    (ei_scalar_abs_op.call (MathFunctions.real R) a = |a|
      ∧ ei_scalar_abs2_op.call (MathFunctions.real R) a = |a| ^ 2
      ∧ ei_scalar_abs2_op.call (MathFunctions.real R) a = a * a
      ∧ 0 ≤ ei_scalar_abs_op.call (MathFunctions.real R) a
      ∧ 0 ≤ ei_scalar_abs2_op.call (MathFunctions.real R) a
      ∧ ei_scalar_abs2_op.call (MathFunctions.real R) a
        = ei_scalar_abs_op.call (MathFunctions.real R) a
          * ei_scalar_abs_op.call (MathFunctions.real R) a)
    ∧ (ei_scalar_abs2_op.call (MathFunctions.complex R sqrt) z = z.re ^ 2 + z.im ^ 2
      ∧ 0 ≤ ei_scalar_abs2_op.call (MathFunctions.complex R sqrt) z
      ∧ ei_scalar_abs_op.call (MathFunctions.complex R sqrt) z
        = sqrt (z.re ^ 2 + z.im ^ 2))
    ∧ (ei_scalar_abs_op.call (MathFunctions.complex ℝ Real.sqrt) u
        = Real.sqrt (u.re ^ 2 + u.im ^ 2)
      ∧ ei_scalar_abs2_op.call (MathFunctions.complex ℝ Real.sqrt) u
        = u.re ^ 2 + u.im ^ 2
      ∧ 0 ≤ ei_scalar_abs_op.call (MathFunctions.complex ℝ Real.sqrt) u
      ∧ 0 ≤ ei_scalar_abs2_op.call (MathFunctions.complex ℝ Real.sqrt) u
      ∧ ei_scalar_abs2_op.call (MathFunctions.complex ℝ Real.sqrt) u
        = ei_scalar_abs_op.call (MathFunctions.complex ℝ Real.sqrt) u ^ 2
      ∧ ei_scalar_abs2_op.call (MathFunctions.complex ℝ Real.sqrt) u
        = ei_scalar_abs_op.call (MathFunctions.complex ℝ Real.sqrt) u
          * ei_scalar_abs_op.call (MathFunctions.complex ℝ Real.sqrt) u) := by
  have hn : 0 ≤ z.re * z.re + z.im * z.im :=
    add_nonneg (mul_self_nonneg z.re) (mul_self_nonneg z.im)
  have hsq : z.re ^ 2 + z.im ^ 2 = z.re * z.re + z.im * z.im := by
    rw [pow_two, pow_two]
  have hnu : 0 ≤ u.re * u.re + u.im * u.im :=
    add_nonneg (mul_self_nonneg u.re) (mul_self_nonneg u.im)
  have hsqu : u.re ^ 2 + u.im ^ 2 = u.re * u.re + u.im * u.im := by
    rw [pow_two, pow_two]
  have hmul : u.re * u.re + u.im * u.im
      = Real.sqrt (u.re * u.re + u.im * u.im) * Real.sqrt (u.re * u.re + u.im * u.im) :=
    (Real.mul_self_sqrt hnu).symm
  refine ⟨⟨rfl, ?_, rfl, abs_nonneg a, mul_self_nonneg a, ?_⟩, ⟨hsq.symm, hn, ?_⟩,
    ⟨?_, hsqu.symm, Real.sqrt_nonneg _, hnu, ?_, hmul⟩⟩
  · show a * a = |a| ^ 2
    rw [sq_abs, pow_two]
  · show a * a = |a| * |a|
    rw [abs_mul_abs_self]
  · show sqrt (z.re * z.re + z.im * z.im) = sqrt (z.re ^ 2 + z.im ^ 2)
    rw [hsq]
  · show Real.sqrt (u.re * u.re + u.im * u.im) = Real.sqrt (u.re ^ 2 + u.im ^ 2)
    rw [hsqu]
  · show u.re * u.re + u.im * u.im = Real.sqrt (u.re * u.re + u.im * u.im) ^ 2
    rw [pow_two]
    exact hmul

/-- Instance of C17: on the integers, `-3` has absolute value `3` and squared absolute
value `9`, and the complex scalar `3 + 4i` has squared absolute value `25`; over the real
numbers `3 + 4i` has absolute value `5`. -/
theorem ei_scalar_abs_abs2_witness :
    ei_scalar_abs_op.call (MathFunctions.real Int) (-3) = 3
    ∧ ei_scalar_abs2_op.call (MathFunctions.real Int) (-3) = 9
    ∧ ei_scalar_abs2_op.call (MathFunctions.complex Int (fun r => r)) ⟨3, 4⟩ = 25
    ∧ ei_scalar_abs_op.call (MathFunctions.complex ℝ Real.sqrt) ⟨3, 4⟩ = 5
    ∧ ei_scalar_abs2_op.call (MathFunctions.complex ℝ Real.sqrt) ⟨3, 4⟩ = 25 := by
  have h := ei_scalar_abs_abs2 (fun r : Int => r) (-3) ⟨3, 4⟩ ⟨3, 4⟩
  refine ⟨h.1.1.trans (by decide), h.1.2.2.1.trans (by decide),
    h.2.1.1.trans (by decide), ?_, ?_⟩
  · rw [h.2.2.1]
    have h5 : ((3 : ℝ) ^ 2 + 4 ^ 2) = 5 ^ 2 := by norm_num
    rw [h5]
    exact Real.sqrt_sq (by norm_num)
  · rw [h.2.2.2.1]
    norm_num

/-! ## Quotient by a constant after multiple by the same constant -/

/-- C18: for every constant `c != 0` and every `a`, applying `ei_scalar_multiple_op(c)`
and then `ei_scalar_quotient1_op(c)` returns `a`: for the non-floating strategy on
unbounded integers with truncating division, and for the reciprocal strategy over exact
field arithmetic. -/
theorem ei_scalar_quotient1_undoes_multiple {S : Type} [Field S] {w : Nat} (hw : 0 < w)
    (pa : Bool) (ntI ntF : NumTraits) (hI : ntI.HasFloatingPoint = false)
    (hF : ntF.HasFloatingPoint = true) (a c : Int) (hc : c ≠ 0) (x y : S) (hy : y ≠ 0) :
    ei_scalar_quotient1_op.call (ei_scalar_quotient1_op.ctor ntI (ZInt.mk c))
        (ei_scalar_multiple_op.call hw (ei_scalar_multiple_op.ctor w pa (ZInt.mk c))
          (ZInt.mk a))
      = ZInt.mk a
    ∧ ei_scalar_quotient1_op.call (ei_scalar_quotient1_op.ctor ntF y)
        (ei_scalar_multiple_op.call hw (ei_scalar_multiple_op.ctor w pa y) x)
      = x := by
  obtain ⟨icI, hfpI, acI, mcI⟩ := ntI
  obtain ⟨icF, hfpF, acF, mcF⟩ := ntF
  simp only at hI hF
  subst hI
  subst hF
  have hm : ∀ (T : Type) [Mul T] (u v : T),
      ei_scalar_multiple_op.call hw (ei_scalar_multiple_op.ctor w pa v) u = u * v := by
    intro T _ u v
    cases pa <;> rfl
  rw [hm, hm]
  constructor
  · show ZInt.mk (Int.tdiv (a * c) c) = ZInt.mk a
    rw [Int.mul_tdiv_cancel a hc]
  · show x * y * (1 / y) = x
    rw [mul_one_div, mul_div_assoc, div_self hy, mul_one]

/-- Instance of C18: multiplying `-7` by `3` and dividing by `3` on unbounded integers, and
multiplying `7` by `2` and then by the reciprocal of `2` on the rationals. -/
theorem ei_scalar_quotient1_undoes_multiple_witness :
    (0 < 4 ∧ (3 : Int) ≠ 0 ∧ (2 : ℚ) ≠ 0)
    ∧ ei_scalar_quotient1_impl.call (ei_scalar_quotient1_impl.ctor false (ZInt.mk 3))
        (ei_scalar_multiple_op.call (by decide : 0 < 4)
          (ei_scalar_multiple_op.ctor 4 false (ZInt.mk 3)) (ZInt.mk (-7)))
      = ZInt.mk (-7)
    ∧ ei_scalar_quotient1_impl.call (ei_scalar_quotient1_impl.ctor true (2 : ℚ))
        (ei_scalar_multiple_op.call (by decide : 0 < 4)
          (ei_scalar_multiple_op.ctor 4 false (2 : ℚ)) 7)
      = 7 := by
  have h := ei_scalar_quotient1_undoes_multiple (by decide : 0 < 4) false
    ⟨false, false, 1, 1⟩ ⟨false, true, 1, 1⟩ rfl rfl (-7) 3 (by decide) (7 : ℚ) 2
    (by norm_num)
  exact ⟨⟨by decide, by decide, by norm_num⟩, h.1, h.2⟩

end Eigen
